import Mathlib

/-!
Shallow embedding of `src/backtest_engine.py` (class `BacktestEngine`).

Modelling conventions:
* Dates are `Nat` (days since an epoch); SQL `date <= :date` becomes `≤` on `Nat`.
* Money and prices are `ℚ` (the Python code uses floats but performs only
  exact field arithmetic in the fragments the claims mention).
* A SQL table is a `List` of rows; `ORDER BY date DESC` is an insertion sort
  with the relation "later date first"; `LIMIT n` is `List.take n`.
* The external collaborators (`AnalystAgent.get_decision`, the live
  implementations of the patched methods, `ExecutionAgent._execute_buy`,
  `check_stop_losses`, and `report_generator`'s closed-trade P&L computation)
  are not in `src/`; they enter the model as oracle parameters.
* Monkey-patched method slots are modelled by Booleans (`true` = the original
  live implementation is installed, `false` = the point-in-time replacement
  is installed); the engine only flips these flags, never calls through them
  blindly, so this captures exactly what `run_backtest` does to them.
* Python exceptions raised by a per-step external call are modelled as
  `Except` / `Bool` outcomes of the oracles; the `try/except` in the loop
  body becomes the corresponding case split.
-/

/-- One row of the `quotes` table (columns used by `backtest_engine.py`:
`date, ticker, close, volume, sma_5, volatility_5`). -/
structure Quote where
  ticker : String
  date : Nat
  close : ℚ
  volume : ℚ
  sma5 : ℚ
  volatility5 : ℚ
  deriving Repr, DecidableEq

/-- Ordering used by ORDER BY date DESC: quote `a` may come before quote `b` when `a` is at
least as recent. -/
def dateGe (a b : Quote) : Prop := b.date ≤ a.date

instance : DecidableRel dateGe := fun a b => Nat.decLe b.date a.date

instance : IsTotal Quote dateGe := ⟨fun a b => Nat.le_total b.date a.date⟩

instance : IsTrans Quote dateGe := ⟨fun _ _ _ h1 h2 => Nat.le_trans h2 h1⟩

/-- Embedding of `ORDER BY date DESC` over a result set. -/
def sortByDateDesc (l : List Quote) : List Quote := l.insertionSort dateGe

/-- Embedding of `BacktestEngine.get_price_at_date`: `SELECT close FROM quotes WHERE
ticker = :ticker AND date <= :date ORDER BY date DESC LIMIT 1`, returning
`none` when no row matches. -/
def get_price_at_date (db : List Quote) (ticker : String) (date : Nat) : Option ℚ :=
  ((sortByDateDesc (db.filter (fun q => q.ticker == ticker && q.date ≤ date))).head?).map
    (fun q => q.close)

/-- Embedding of `BacktestEngine.get_available_dates`: `SELECT DISTINCT date FROM quotes
WHERE ticker = :ticker AND date >= :start_date AND date <= :end_date ORDER BY
date ASC`.  Enumerating `0 .. end_date` and filtering yields exactly the
distinct matching dates in ascending order. -/
def get_available_dates (db : List Quote) (ticker : String)
    (start_date end_date : Nat) : List Nat :=
  (List.range (end_date + 1)).filter
    (fun d => start_date ≤ d && db.any (fun q => q.ticker == ticker && q.date == d))

/-- One row of the `portfolio_state` table. -/
structure PortfolioRow where
  ticker : String
  quantity : ℚ
  avgEntryPrice : Option ℚ
  lastUpdated : Nat
  deriving Repr, DecidableEq

/-- Statement `DELETE FROM portfolio_state WHERE ticker != 'CASH'`. -/
def deleteNonCash (s : List PortfolioRow) : List PortfolioRow :=
  s.filter (fun r => r.ticker == "CASH")

/-- Statement `UPDATE portfolio_state SET quantity = :cash, last_updated =
CURRENT_TIMESTAMP WHERE ticker = 'CASH'` (`now` stands for
`CURRENT_TIMESTAMP`). -/
def updateCash (cash : ℚ) (now : Nat) (s : List PortfolioRow) : List PortfolioRow :=
  s.map (fun r => if r.ticker == "CASH" then
    { r with quantity := cash, lastUpdated := now } else r)

/-- Statement `INSERT INTO portfolio_state ... VALUES ('CASH', :cash, CURRENT_TIMESTAMP)
ON CONFLICT (ticker) DO NOTHING`. -/
def insertCashIfAbsent (cash : ℚ) (now : Nat) (s : List PortfolioRow) : List PortfolioRow :=
  if s.any (fun r => r.ticker == "CASH") then s
  else s ++ [⟨"CASH", cash, none, now⟩]

/-- Embedding of `BacktestEngine.reset_portfolio`: the three statements above, in source
order, inside one transaction. -/
def reset_portfolio (cash : ℚ) (now : Nat) (s : List PortfolioRow) : List PortfolioRow :=
  insertCashIfAbsent cash now (updateCash cash now (deleteNonCash s))

/-- The replacement `get_quotes_for_date` installed over
`analyst.get_last_5_days_quotes`: when `self.current_date` is set it runs
`SELECT date, ticker, close, volume, sma_5, volatility_5 FROM quotes WHERE
ticker = :ticker AND date <= :date ORDER BY date DESC LIMIT 5`; otherwise it
delegates to the saved original implementation `orig`. -/
def get_quotes_for_date (db : List Quote) (clock : Option Nat)
    (orig : String → List Quote) (ticker : String) : List Quote :=
  match clock with
  | some d => (sortByDateDesc (db.filter (fun q => q.ticker == ticker && q.date ≤ d))).take 5
  | none => orig ticker

/-- The replacement `get_volatility_for_date` installed over
`analyst.get_average_volatility_20_days`: when `self.current_date` is set it
runs `SELECT AVG(volatility_5) FROM (SELECT volatility_5 FROM quotes WHERE
ticker = :ticker AND date <= :date ORDER BY date DESC LIMIT 20) as last_20`
and returns `0.0` when the aggregate is NULL (empty window); otherwise it
delegates to the saved original implementation `orig`. -/
def get_volatility_for_date (db : List Quote) (clock : Option Nat)
    (orig : String → ℚ) (ticker : String) : ℚ :=
  match clock with
  | some d =>
    let last20 :=
      (sortByDateDesc (db.filter (fun q => q.ticker == ticker && q.date ≤ d))).take 20
    if last20.isEmpty then 0
    else (last20.map (fun q => q.volatility5)).sum / (last20.length : ℚ)
  | none => orig ticker

/-- Outcomes of the external collaborators consulted inside the per-date,
per-instrument loop of `run_backtest`, plus the closed-trade P&L list that
`_calculate_backtest_results` obtains from `report_generator` at the end.
An `Except.error` / `false` outcome models the call raising a Python
exception. -/
structure Behaviour where
  decide : Nat → String → Except String String
  execBuyOk : Nat → String → Bool
  stopLossOk : Nat → String → Bool
  tradePnls : List ℚ

/-- The run-scoped mutable data of `run_backtest` while the loop is active:
`self.current_date`, the two counters, plus two instrumentation logs — the
decision requests issued (every `analyst.get_decision` call site reached)
and the steps whose exception was caught by the `except` clause. -/
structure RunState where
  current_date : Option Nat
  decisions : Nat
  trades : Nat
  requests : List (Nat × String)
  caught : List (Nat × String)
  deriving Repr, DecidableEq

/-- The body of `for ticker in tickers:` — one `try:` block.  The decision is
requested first; on an exception nothing is counted.  On success
`decisions_count += 1`; a BUY-class signal triggers `_execute_buy` (counting
the trade only when it does not raise), and `check_stop_losses` runs after a
non-raising non-buy or successful-buy path.  Any raise is caught and logged. -/
def processTicker (b : Behaviour) (date : Nat) (ticker : String) (s : RunState) : RunState :=
  let s := { s with requests := s.requests ++ [(date, ticker)] }
  match b.decide date ticker with
  | .error _ => { s with caught := s.caught ++ [(date, ticker)] }
  | .ok decision =>
    let s := { s with decisions := s.decisions + 1 }
    if decision == "BUY" || decision == "STRONG_BUY" then
      if b.execBuyOk date ticker then
        let s := { s with trades := s.trades + 1 }
        if b.stopLossOk date ticker then s
        else { s with caught := s.caught ++ [(date, ticker)] }
      else { s with caught := s.caught ++ [(date, ticker)] }
    else
      if b.stopLossOk date ticker then s
      else { s with caught := s.caught ++ [(date, ticker)] }

/-- One iteration of `for i, date in enumerate(dates):` —
`self.current_date = date` happens first, then indices `i < 5` are skipped
(warm-up for the 5-day SMA), and otherwise every ticker is processed. -/
def stepDate (b : Behaviour) (tickers : List String) (s : RunState)
    (i : Nat) (date : Nat) : RunState :=
  let s := { s with current_date := some date }
  if i < 5 then s
  else tickers.foldl (fun s t => processTicker b date t s) s

/-- The date loop with its running index (the `enumerate` counter). -/
def runLoopAux (b : Behaviour) (tickers : List String) :
    List Nat → Nat → RunState → RunState
  | [], _, s => s
  | date :: rest, i, s => runLoopAux b tickers rest (i + 1) (stepDate b tickers s i date)

/-- The full date loop of `run_backtest`, starting at index 0. -/
def runLoop (b : Behaviour) (tickers : List String) (dates : List Nat)
    (s : RunState) : RunState :=
  runLoopAux b tickers dates 0 s

/-- Line 320: `price = self.get_price_at_date(ticker, self.current_date) if
self.current_date else None`. -/
def markPrice (db : List Quote) (current_date : Option Nat) (ticker : String) : Option ℚ :=
  match current_date with
  | some d => get_price_at_date db ticker d
  | none => none

/-- The contribution of one open position to `open_positions_value`.  The
guard in the source is `if price:` — Python truthiness — so both a `None`
price and a price equal to `0.0` contribute nothing. -/
def positionContribution (db : List Quote) (current_date : Option Nat)
    (pos : PortfolioRow) : ℚ :=
  match markPrice db current_date pos.ticker with
  | some p => if p = 0 then 0 else pos.quantity * p
  | none => 0

/-- The mark-to-market accumulation loop over
`SELECT ticker, quantity, avg_entry_price FROM portfolio_state WHERE ticker
!= 'CASH' AND quantity > 0`. -/
def openPositionsValue (db : List Quote) (current_date : Option Nat)
    (portfolio : List PortfolioRow) : ℚ :=
  (portfolio.filter (fun r => r.ticker != "CASH" && 0 < r.quantity)).foldl
    (fun acc pos => acc + positionContribution db current_date pos) 0

/-- The dictionary built by `_calculate_backtest_results`. -/
structure CalcResults where
  initial_cash : ℚ
  final_cash : ℚ
  open_positions_value : ℚ
  total_value : ℚ
  total_pnl : ℚ
  pnl_percent : ℚ
  closed_pnl : ℚ
  win_rate : ℚ
  closed_trades_count : Nat
  deriving Repr, DecidableEq

/-- Embedding of `BacktestEngine._calculate_backtest_results`.  `trade_pnls` is the list
of per-closed-trade `net_pnl` values that `load_trade_history` +
`compute_closed_trade_pnls` (external module `report_generator`) produce. -/
def calculate_backtest_results (db : List Quote) (initial_cash : ℚ)
    (portfolio : List PortfolioRow) (current_date : Option Nat)
    (trade_pnls : List ℚ) : CalcResults :=
  let final_cash :=
    match (portfolio.filter (fun r => r.ticker == "CASH")).head? with
    | some r => r.quantity
    | none => initial_cash
  let opv := openPositionsValue db current_date portfolio
  let closed_pnl := if trade_pnls.isEmpty then 0 else trade_pnls.sum
  let win_rate :=
    if trade_pnls.isEmpty then 0
    else ((trade_pnls.filter (fun t => 0 < t)).length : ℚ) / (trade_pnls.length : ℚ) * 100
  let total_value := final_cash + opv
  let total_pnl := total_value - initial_cash
  let pnl_percent := if 0 < initial_cash then total_pnl / initial_cash * 100 else 0
  { initial_cash := initial_cash
    final_cash := final_cash
    open_positions_value := opv
    total_value := total_value
    total_pnl := total_pnl
    pnl_percent := pnl_percent
    closed_pnl := closed_pnl
    win_rate := win_rate
    closed_trades_count := trade_pnls.length }

/-- The engine-level mutable state touched by `run_backtest` outside the
loop: the portfolio table, `self.current_date`, and the three monkey-patched
method slots (`executor._get_current_price`,
`analyst.get_last_5_days_quotes`, `analyst.get_average_volatility_20_days`);
`true` means the original live implementation is installed. -/
structure EngineState where
  portfolio : List PortfolioRow
  current_date : Option Nat
  priceSlotLive : Bool
  quotesSlotLive : Bool
  volSlotLive : Bool
  deriving Repr, DecidableEq

/-- The dictionary returned by `run_backtest` on the non-early-return path:
the `_calculate_backtest_results` entries plus `trades_count`,
`decisions_count` and `dates_processed`. -/
structure FinalResult where
  core : CalcResults
  trades_count : Nat
  decisions_count : Nat
  dates_processed : Nat
  deriving Repr, DecidableEq

/-- Embedding of `BacktestEngine.run_backtest`, in source order: optional
`reset_portfolio`; empty-`tickers` early return of `{}` (modelled `none`);
`get_available_dates` on `tickers[0]` with empty-calendar early return;
installation of the three point-in-time replacements; the date loop;
straight-line (not `finally`-guarded) restoration of the three original
methods — `self.current_date` is left at its last value; aggregation.  The
loop's portfolio mutations happen inside the external execution agent and
are outside `src/`, so the model reads the portfolio as the loop left it in
the engine state. -/
def run_backtest (db : List Quote) (initial_cash : ℚ) (now : Nat)
    (b : Behaviour) (tickers : List String) (start_date end_date : Nat)
    (reset_before : Bool) (s : EngineState) : Option FinalResult × EngineState :=
  let s := if reset_before then
    { s with portfolio := reset_portfolio initial_cash now s.portfolio } else s
  match tickers with
  | [] => (none, s)
  | t0 :: _ =>
    let dates := get_available_dates db t0 start_date end_date
    if dates.isEmpty then (none, s)
    else
      let s := { s with priceSlotLive := false, quotesSlotLive := false,
                        volSlotLive := false }
      let run := runLoop b tickers dates ⟨s.current_date, 0, 0, [], []⟩
      let s := { s with priceSlotLive := true, quotesSlotLive := true,
                        volSlotLive := true, current_date := run.current_date }
      let core := calculate_backtest_results db initial_cash s.portfolio
        s.current_date b.tradePnls
      (some ⟨core, run.trades, run.decisions, dates.length⟩, s)

/-! ### Helper lemmas about the sorted, filtered quote windows -/

theorem mem_sortByDateDesc {l : List Quote} {q : Quote} :
    q ∈ sortByDateDesc l ↔ q ∈ l := by
  unfold sortByDateDesc
  exact List.mem_insertionSort dateGe

theorem pairwise_sortByDateDesc (l : List Quote) :
    List.Pairwise dateGe (sortByDateDesc l) :=
  List.sorted_insertionSort dateGe l

theorem filter_le_date_comm (db : List Quote) (t : String) (d : Nat) :
    (db.filter (fun q => decide (q.date ≤ d))).filter
        (fun q => q.ticker == t && q.date ≤ d)
      = db.filter (fun q => q.ticker == t && q.date ≤ d) := by
  induction db with
  | nil => rfl
  | cons q rest ih =>
    by_cases hd : q.date ≤ d
    · by_cases ht : q.ticker = t <;>
        simp [List.filter_cons, hd, ht, ih]
    · simp [List.filter_cons, hd, ih]

/-- Claim C1. Point-in-time causality: with the simulated clock at `D`, the
historical price oracle `get_price_at_date`, the substituted recent-quotes
adapter and the substituted average-volatility adapter all compute the same
answer on the database restricted to records dated at or before `D` — so no
record dated after `D` is ever used or returned — and in addition every
record the quotes adapter returns is dated at or before `D`. -/
theorem causality_point_in_time (db : List Quote) (t : String) (D : Nat)
    (origQ : String → List Quote) (origV : String → ℚ) :
    get_price_at_date db t D
        = get_price_at_date (db.filter (fun q => q.date ≤ D)) t D
      ∧ get_quotes_for_date db (some D) origQ t
        = get_quotes_for_date (db.filter (fun q => q.date ≤ D)) (some D) origQ t
      ∧ get_volatility_for_date db (some D) origV t
        = get_volatility_for_date (db.filter (fun q => q.date ≤ D)) (some D) origV t
      ∧ (get_quotes_for_date db (some D) origQ t).all
          (fun q => q.date ≤ D) = true := by
  have hf := filter_le_date_comm db t D
  refine ⟨?_, ?_, ?_, ?_⟩
  · unfold get_price_at_date
    rw [hf]
  · show (sortByDateDesc _).take 5 = (sortByDateDesc _).take 5
    rw [hf]
  · show (if _ then _ else _) = (if _ then _ else _)
    rw [hf]
  · rw [List.all_eq_true]
    intro q hq
    have hmem : q ∈ sortByDateDesc
        (db.filter (fun q => q.ticker == t && q.date ≤ D)) :=
      List.take_subset 5 _ hq
    have hq' := (List.mem_filter.mp (mem_sortByDateDesc.mp hmem)).2
    simp only [Bool.and_eq_true, decide_eq_true_eq] at hq'
    exact decide_eq_true hq'.2

theorem quotes_window_dates_le (db : List Quote) (t : String) (d n : Nat) :
    ((sortByDateDesc (db.filter (fun q => q.ticker == t && q.date ≤ d))).take n).all
      (fun q => q.date ≤ d) = true := by
  rw [List.all_eq_true]
  intro q hq
  have hmem : q ∈ sortByDateDesc
      (db.filter (fun q => q.ticker == t && q.date ≤ d)) :=
    List.take_subset n _ hq
  have hq' := (List.mem_filter.mp (mem_sortByDateDesc.mp hmem)).2
  simp only [Bool.and_eq_true, decide_eq_true_eq] at hq'
  exact decide_eq_true hq'.2

/-- Claim C7. Recent-quotes adapter: with the simulated clock set to `d` the
substitute for `get_last_5_days_quotes` returns at most 5 records, every one
dated at or before `d`, ordered most-recent-first; with the clock unset it
delegates to the saved original implementation. -/
theorem recent_quotes_adapter (db : List Quote) (d : Nat)
    (orig : String → List Quote) (t : String) :
    (get_quotes_for_date db (some d) orig t).length ≤ 5
  ∧ (get_quotes_for_date db (some d) orig t).all (fun q => q.date ≤ d) = true
  ∧ List.Pairwise dateGe (get_quotes_for_date db (some d) orig t)
  ∧ get_quotes_for_date db none orig t = orig t := by
  refine ⟨?_, quotes_window_dates_le db t d 5, ?_, rfl⟩
  · show ((sortByDateDesc _).take 5).length ≤ 5
    rw [List.length_take]
    exact Nat.min_le_left _ _
  · show List.Pairwise dateGe ((sortByDateDesc _).take 5)
    exact List.Pairwise.sublist (List.take_sublist 5 _) (pairwise_sortByDateDesc _)

/-- Claim C8. Volatility adapter: with the simulated clock set to `d` the
substitute for `get_average_volatility_20_days` returns the mean of
`volatility_5` over the 20-record window drawn from the most recent
qualifying records (records of the ticker dated at or before the clock), and
returns `0` — not an absent value — when no qualifying record exists; the
window really consists of qualifying records only, has size
`min 20 (number of qualifying records)`, and every record in it is at least
as recent as every qualifying record left out of it. -/
theorem volatility_adapter (db : List Quote) (d : Nat)
    (orig : String → ℚ) (t : String) :
    get_volatility_for_date db (some d) orig t
      = (if (db.filter (fun q => q.ticker == t && q.date ≤ d)).isEmpty then 0
         else (((sortByDateDesc (db.filter (fun q => q.ticker == t && q.date ≤ d))).take
              20).map (fun q => q.volatility5)).sum
            / ((((sortByDateDesc (db.filter (fun q => q.ticker == t && q.date ≤ d))).take
              20).length : ℚ)))
  ∧ ((sortByDateDesc (db.filter (fun q => q.ticker == t && q.date ≤ d))).take 20).length
      = min 20 (db.filter (fun q => q.ticker == t && q.date ≤ d)).length
  ∧ ((sortByDateDesc (db.filter (fun q => q.ticker == t && q.date ≤ d))).take 20).all
      (fun q => q.ticker == t && q.date ≤ d) = true
  ∧ ((sortByDateDesc (db.filter (fun q => q.ticker == t && q.date ≤ d))).take 20).all
      (fun a => ((sortByDateDesc (db.filter (fun q => q.ticker == t && q.date ≤ d))).drop
        20).all (fun b => decide (b.date ≤ a.date))) = true := by
  have hsortlen : (sortByDateDesc
      (db.filter (fun q => q.ticker == t && q.date ≤ d))).length
      = (db.filter (fun q => q.ticker == t && q.date ≤ d)).length :=
    List.length_insertionSort dateGe _
  refine ⟨?_, ?_, ?_, ?_⟩
  · show (if _ then _ else _) = (if _ then _ else _)
    have hemp : ((sortByDateDesc
        (db.filter (fun q => q.ticker == t && q.date ≤ d))).take 20).isEmpty
        = (db.filter (fun q => q.ticker == t && q.date ≤ d)).isEmpty := by
      rw [Bool.eq_iff_iff, List.isEmpty_iff, List.isEmpty_iff]
      constructor
      · intro h
        have h0 : min 20 (db.filter (fun q => q.ticker == t && q.date ≤ d)).length
            = 0 := by
          rw [← hsortlen, ← List.length_take]
          rw [h]
          rfl
        have h1 : (db.filter (fun q => q.ticker == t && q.date ≤ d)).length = 0 := by
          omega
        exact List.eq_nil_of_length_eq_zero h1
      · intro h
        rw [h]
        rfl
    rw [hemp]
  · rw [List.length_take, hsortlen]
  · rw [List.all_eq_true]
    intro q hq
    exact (List.mem_filter.mp (mem_sortByDateDesc.mp (List.take_subset 20 _ hq))).2
  · have hp := pairwise_sortByDateDesc
      (db.filter (fun q => q.ticker == t && q.date ≤ d))
    rw [← List.take_append_drop 20 (sortByDateDesc
      (db.filter (fun q => q.ticker == t && q.date ≤ d))), List.pairwise_append] at hp
    obtain ⟨-, -, hcross⟩ := hp
    rw [List.all_eq_true]
    intro a ha
    rw [List.all_eq_true]
    intro b hb
    exact decide_eq_true (hcross a ha b hb)

/-! ### Helper lemmas about `reset_portfolio` -/

/-- The row transformation the `UPDATE ... WHERE ticker = 'CASH'` statement
applies to a matching row. -/
def updCash (cash : ℚ) (now : Nat) (r : PortfolioRow) : PortfolioRow :=
  { r with quantity := cash, lastUpdated := now }

theorem ticker_updCash (cash : ℚ) (now : Nat) (r : PortfolioRow) :
    (updCash cash now r).ticker = r.ticker := rfl

theorem updateCash_of_all_cash (cash : ℚ) (now : Nat) (l : List PortfolioRow)
    (h : ∀ r ∈ l, r.ticker == "CASH") :
    updateCash cash now l = l.map (updCash cash now) := by
  unfold updateCash
  apply List.map_congr_left
  intro r hr
  rw [if_pos (h r hr)]
  rfl

theorem mem_deleteNonCash_ticker {s : List PortfolioRow} {r : PortfolioRow}
    (h : r ∈ deleteNonCash s) : r.ticker == "CASH" := by
  exact (List.mem_filter.mp h).2

/-- Normal form of `reset_portfolio`: when the table had no `CASH` row the
result is the single freshly inserted `CASH` row, otherwise it is the old
`CASH` rows with quantity and timestamp overwritten. -/
theorem reset_portfolio_eq (cash : ℚ) (now : Nat) (s : List PortfolioRow) :
    reset_portfolio cash now s
      = if deleteNonCash s = [] then [⟨"CASH", cash, none, now⟩]
        else (deleteNonCash s).map (updCash cash now) := by
  unfold reset_portfolio
  rw [updateCash_of_all_cash cash now (deleteNonCash s)
    (fun r hr => mem_deleteNonCash_ticker hr)]
  by_cases h : deleteNonCash s = []
  · rw [h]
    rfl
  · rw [if_neg h]
    rcases hd : deleteNonCash s with _ | ⟨r, rest⟩
    · exact absurd hd h
    · have hr : r.ticker == "CASH" :=
        mem_deleteNonCash_ticker (hd ▸ List.mem_cons_self r rest)
      unfold insertCashIfAbsent
      rw [if_pos]
      simp only [List.map_cons, List.any_cons, ticker_updCash, hr, Bool.true_or]

theorem deleteNonCash_map_updCash (cash : ℚ) (now : Nat) (s : List PortfolioRow) :
    deleteNonCash ((deleteNonCash s).map (updCash cash now))
      = (deleteNonCash s).map (updCash cash now) := by
  unfold deleteNonCash
  rw [List.filter_eq_self]
  intro a ha
  obtain ⟨b, hb, rfl⟩ := List.mem_map.mp ha
  rw [ticker_updCash]
  exact mem_deleteNonCash_ticker hb

theorem updCash_updCash (cash : ℚ) (t t' : Nat) (r : PortfolioRow) :
    updCash cash t (updCash cash t' r) = updCash cash t r := rfl

/-- Claim C4. Idempotence of `reset_portfolio`: for every starting portfolio
table, initial cash value and `CURRENT_TIMESTAMP` values `t'`, `t` of the
two calls, resetting twice in a row yields exactly the table that one reset
(with the second call's timestamp) yields, and that table consists of `CASH`
rows only, each carrying quantity `initial_cash`. -/
theorem reset_portfolio_idempotent (cash : ℚ) (t t' : Nat) (s : List PortfolioRow) :
    reset_portfolio cash t (reset_portfolio cash t' s) = reset_portfolio cash t s
  ∧ (reset_portfolio cash t s).all
      (fun r => r.ticker == "CASH" && decide (r.quantity = cash)) = true := by
  constructor
  · rw [reset_portfolio_eq cash t' s]
    by_cases h : deleteNonCash s = []
    · rw [if_pos h, reset_portfolio_eq cash t s, if_pos h]
      rfl
    · rw [if_neg h, reset_portfolio_eq cash t _,
        reset_portfolio_eq cash t s, if_neg h,
        deleteNonCash_map_updCash, if_neg (by
          intro hnil
          exact h (List.map_eq_nil_iff.mp hnil)),
        List.map_map]
      apply List.map_congr_left
      intro r _
      exact updCash_updCash cash t t' r
  · rw [reset_portfolio_eq cash t s]
    by_cases h : deleteNonCash s = []
    · rw [if_pos h]
      simp
    · rw [if_neg h, List.all_eq_true]
      intro x hx
      obtain ⟨b, hb, rfl⟩ := List.mem_map.mp hx
      rw [ticker_updCash]
      simp only [Bool.and_eq_true, decide_eq_true_eq]
      exact ⟨mem_deleteNonCash_ticker hb, rfl⟩

/-! ### Helper lemmas about the simulation loop -/

theorem processTicker_requests (b : Behaviour) (d : Nat) (t : String) (s : RunState) :
    (processTicker b d t s).requests = s.requests ++ [(d, t)] := by
  unfold processTicker
  rcases b.decide d t with e | dec
  · rfl
  · dsimp only
    split
    · split
      · split <;> rfl
      · rfl
    · split <;> rfl

theorem processTicker_current_date (b : Behaviour) (d : Nat) (t : String) (s : RunState) :
    (processTicker b d t s).current_date = s.current_date := by
  unfold processTicker
  rcases b.decide d t with e | dec
  · rfl
  · dsimp only
    split
    · split
      · split <;> rfl
      · rfl
    · split <;> rfl

theorem foldl_processTicker_requests (b : Behaviour) (d : Nat) (tk : List String) :
    ∀ s : RunState,
    (tk.foldl (fun s t => processTicker b d t s) s).requests
      = s.requests ++ tk.map (fun t => (d, t)) := by
  induction tk with
  | nil => intro s; simp
  | cons t rest ih =>
    intro s
    simp only [List.foldl_cons, List.map_cons]
    rw [ih, processTicker_requests, List.append_assoc]
    rfl

theorem foldl_processTicker_current_date (b : Behaviour) (d : Nat) (tk : List String) :
    ∀ s : RunState,
    (tk.foldl (fun s t => processTicker b d t s) s).current_date = s.current_date := by
  induction tk with
  | nil => intro s; rfl
  | cons t rest ih =>
    intro s
    simp only [List.foldl_cons]
    rw [ih, processTicker_current_date]

theorem stepDate_requests (b : Behaviour) (tk : List String) (s : RunState)
    (i d : Nat) :
    (stepDate b tk s i d).requests
      = s.requests ++ (if i < 5 then [] else tk.map (fun t => (d, t))) := by
  unfold stepDate
  by_cases h : i < 5
  · rw [if_pos h, if_pos h, List.append_nil]
  · rw [if_neg h, if_neg h, foldl_processTicker_requests]

theorem stepDate_current_date (b : Behaviour) (tk : List String) (s : RunState)
    (i d : Nat) :
    (stepDate b tk s i d).current_date = some d := by
  unfold stepDate
  by_cases h : i < 5
  · rw [if_pos h]
  · rw [if_neg h, foldl_processTicker_current_date]

/-- The dates the loop actually processes when the `enumerate` counter
starts at `i`: indices below 5 are skipped. -/
def activeFrom : Nat → List Nat → List Nat
  | _, [] => []
  | i, d :: rest => if i < 5 then activeFrom (i + 1) rest else d :: activeFrom (i + 1) rest

theorem activeFrom_eq_drop : ∀ (dates : List Nat) (i : Nat),
    activeFrom i dates = dates.drop (5 - i) := by
  intro dates
  induction dates with
  | nil => intro i; simp [activeFrom]
  | cons d rest ih =>
    intro i
    by_cases h : i < 5
    · rw [show activeFrom i (d :: rest) = activeFrom (i + 1) rest from if_pos h, ih]
      have h5 : 5 - i = (5 - (i + 1)) + 1 := by omega
      rw [h5]
      rfl
    · rw [show activeFrom i (d :: rest) = d :: activeFrom (i + 1) rest from if_neg h, ih]
      have h5 : 5 - i = 0 := by omega
      have h5' : 5 - (i + 1) = 0 := by omega
      rw [h5, h5']
      rfl

theorem runLoopAux_requests (b : Behaviour) (tk : List String) :
    ∀ (dates : List Nat) (i : Nat) (s : RunState),
    (runLoopAux b tk dates i s).requests
      = s.requests
        ++ (activeFrom i dates).flatMap (fun d => tk.map (fun t => (d, t))) := by
  intro dates
  induction dates with
  | nil => intro i s; simp [runLoopAux, activeFrom]
  | cons d rest ih =>
    intro i s
    rw [show runLoopAux b tk (d :: rest) i s
      = runLoopAux b tk rest (i + 1) (stepDate b tk s i d) from rfl, ih,
      stepDate_requests]
    by_cases h : i < 5
    · rw [if_pos h, show activeFrom i (d :: rest) = activeFrom (i + 1) rest from if_pos h,
        List.append_nil]
    · rw [if_neg h, show activeFrom i (d :: rest) = d :: activeFrom (i + 1) rest from
        if_neg h, List.flatMap_cons, List.append_assoc]

theorem runLoopAux_current_date (b : Behaviour) (tk : List String) :
    ∀ (dates : List Nat) (i : Nat) (s : RunState),
    (runLoopAux b tk dates i s).current_date
      = dates.getLast?.or s.current_date := by
  intro dates
  induction dates with
  | nil => intro i s; rfl
  | cons d rest ih =>
    intro i s
    rw [show runLoopAux b tk (d :: rest) i s
      = runLoopAux b tk rest (i + 1) (stepDate b tk s i d) from rfl, ih,
      stepDate_current_date]
    rcases rest with _ | ⟨d', rest'⟩
    · rfl
    · rw [List.getLast?_cons_cons]
      rcases hlast : (d' :: rest').getLast? with _ | l
      · exact absurd hlast (by simp)
      · rfl

theorem runLoop_requests (b : Behaviour) (tk : List String) (dates : List Nat)
    (s : RunState) :
    (runLoop b tk dates s).requests
      = s.requests ++ (dates.drop 5).flatMap (fun d => tk.map (fun t => (d, t))) := by
  unfold runLoop
  rw [runLoopAux_requests, activeFrom_eq_drop]

/-- Claim C5. Warm-up skip: over a calendar of `N` dates the loop issues
decision requests exactly on the dates at indices 5 and above — one request
per configured ticker per such date, in order — so `max (N-5) 0` dates
produce activity and the total number of decision requests is
`(N - 5) * number of tickers` (truncated subtraction). -/
theorem warmup_skip (b : Behaviour) (tickers : List String) (dates : List Nat)
    (cd : Option Nat) :
    (runLoop b tickers dates ⟨cd, 0, 0, [], []⟩).requests
      = (dates.drop 5).flatMap (fun d => tickers.map (fun t => (d, t)))
  ∧ (runLoop b tickers dates ⟨cd, 0, 0, [], []⟩).requests.length
      = (dates.length - 5) * tickers.length := by
  have h := runLoop_requests b tickers dates ⟨cd, 0, 0, [], []⟩
  rw [List.nil_append] at h
  refine ⟨h, ?_⟩
  rw [h, List.length_flatMap]
  simp only [Function.comp_def]
  have hmap : (dates.drop 5).map (fun d => (tickers.map (fun t => (d, t))).length)
      = (dates.drop 5).map (fun _ => tickers.length) := by
    apply List.map_congr_left
    intro d _
    rw [List.length_map]
  rw [hmap, List.map_const', List.sum_replicate, smul_eq_mul, List.length_drop]

/-- Claim C6. Degenerate-case defaults in the aggregator: with zero closed
trades `win_rate` and `closed_pnl` are 0, and with `initial_cash = 0`
`pnl_percent` is 0; the aggregator is a total function, so neither case can
raise. -/
theorem degenerate_defaults (db : List Quote) (cash : ℚ)
    (pf : List PortfolioRow) (cd : Option Nat) (pnls : List ℚ) :
    (calculate_backtest_results db cash pf cd []).win_rate = 0
  ∧ (calculate_backtest_results db cash pf cd []).closed_pnl = 0
  ∧ (calculate_backtest_results db 0 pf cd pnls).pnl_percent = 0 := by
  refine ⟨?_, ?_, ?_⟩ <;> simp [calculate_backtest_results]

/-- Claim C10. In the aggregator's mark-to-market step the contribution of an
open position is guarded by Python truthiness of the resolved price
(`if price:`), so a position whose last price resolves to exactly `0.0`
contributes zero to `open_positions_value`, exactly like a position with no
resolvable price at all. -/
theorem truthiness_zero_price (db db' : List Quote) (cd cd' : Option Nat)
    (pos : PortfolioRow) (cash : ℚ) (pnls : List ℚ)
    (h : markPrice db cd pos.ticker = some 0)
    (h' : markPrice db' cd' pos.ticker = none) :
    positionContribution db cd pos = 0
  ∧ positionContribution db cd pos = positionContribution db' cd' pos
  ∧ (calculate_backtest_results db cash [pos] cd pnls).open_positions_value
      = (calculate_backtest_results db' cash [pos] cd' pnls).open_positions_value := by
  have h1 : positionContribution db cd pos = 0 := by
    unfold positionContribution
    rw [h]
    simp
  have h2 : positionContribution db' cd' pos = 0 := by
    unfold positionContribution
    rw [h']
  refine ⟨h1, by rw [h1, h2], ?_⟩
  show openPositionsValue db cd [pos] = openPositionsValue db' cd' [pos]
  unfold openPositionsValue
  by_cases hp : (pos.ticker != "CASH" && decide (0 < pos.quantity)) = true
  · simp only [List.filter_cons, hp, if_pos, List.filter_nil, List.foldl_cons,
      List.foldl_nil, h1, h2]
  · simp only [List.filter_cons, List.filter_nil]
    rw [if_neg hp]
    rfl

def dbZeroPrice : List Quote := [⟨"A", 3, 0, 1, 1, 1⟩]

def posA : PortfolioRow := ⟨"A", 2, none, 0⟩

/-- Witness for `truthiness_zero_price` at a concrete database in which the
resolved last price of the open position is exactly `0`. -/
theorem truthiness_zero_price_witness :
    positionContribution dbZeroPrice (some 5) posA = 0 :=
  (truthiness_zero_price dbZeroPrice [] (some 5) none posA 0 []
    (by decide) (by decide)).1

theorem runLoop_current_date (b : Behaviour) (tk : List String) (dates : List Nat)
    (s : RunState) :
    (runLoop b tk dates s).current_date = dates.getLast?.or s.current_date := by
  unfold runLoop
  rw [runLoopAux_current_date]

theorem getLast?_or_ne_none (l : List Nat) (o : Option Nat)
    (h : l.isEmpty = false) : l.getLast?.or o ≠ none := by
  rcases l with _ | ⟨a, rest⟩
  · exact absurd h (by simp)
  · have hs : (a :: rest).getLast?.isSome = true := by
      rw [List.getLast?_isSome]
      exact List.cons_ne_nil a rest
    rcases hl : (a :: rest).getLast? with _ | v
    · rw [hl] at hs
      exact absurd hs (by simp)
    · simp [hl]

/-- Claim C9. Per-step error containment: which external decision/execution
calls raise has no influence on which instrument/date steps the loop
reaches — the decision-request trace is identical for any two behaviours,
failures included — and a run that passes the start-up checks always
returns a final result (`some ...`), never propagating a per-step failure. -/
theorem per_step_error_containment (b b' : Behaviour) (tickers : List String)
    (dates : List Nat) (s : RunState) (db : List Quote) (cash : ℚ) (now : Nat)
    (t0 : String) (rest : List String) (sd ed : Nat) (rb : Bool) (es : EngineState)
    (h : (get_available_dates db t0 sd ed).isEmpty = false) :
    (runLoop b tickers dates s).requests = (runLoop b' tickers dates s).requests
  ∧ (run_backtest db cash now b (t0 :: rest) sd ed rb es).1.isSome = true := by
  constructor
  · rw [runLoop_requests, runLoop_requests]
  · unfold run_backtest
    dsimp only
    rw [h]
    rfl

/-- Claim C2, amended. After `run_backtest` returns — including runs in which
every per-step call raised — the three monkey-patched method slots are back
on the original live implementations; `self.current_date`, however, is NOT
cleared to `None`: it is left holding the last calendar date (the aggregator
still reads it after the loop), so only the method-restoration half of the
original claim holds, and only on the normal-return path (the restoration
statements are straight-line code after the loop, not a `finally` block). -/
theorem restoration_without_clock_clear (db : List Quote) (cash : ℚ) (now : Nat)
    (b : Behaviour) (t0 : String) (rest : List String) (sd ed : Nat) (rb : Bool)
    (es : EngineState)
    (h : (get_available_dates db t0 sd ed).isEmpty = false) :
    (run_backtest db cash now b (t0 :: rest) sd ed rb es).2.priceSlotLive = true
  ∧ (run_backtest db cash now b (t0 :: rest) sd ed rb es).2.quotesSlotLive = true
  ∧ (run_backtest db cash now b (t0 :: rest) sd ed rb es).2.volSlotLive = true
  ∧ (run_backtest db cash now b (t0 :: rest) sd ed rb es).2.current_date
      = (get_available_dates db t0 sd ed).getLast?.or es.current_date
  ∧ (run_backtest db cash now b (t0 :: rest) sd ed rb es).2.current_date ≠ none := by
  have hcd : (run_backtest db cash now b (t0 :: rest) sd ed rb es).2.current_date
      = (get_available_dates db t0 sd ed).getLast?.or es.current_date := by
    unfold run_backtest
    dsimp only
    rw [h]
    show (runLoop b (t0 :: rest) (get_available_dates db t0 sd ed) _).current_date = _
    rw [runLoop_current_date]
    cases rb <;> rfl
  refine ⟨?_, ?_, ?_, hcd, ?_⟩
  · unfold run_backtest
    dsimp only
    rw [h]
    rfl
  · unfold run_backtest
    dsimp only
    rw [h]
    rfl
  · unfold run_backtest
    dsimp only
    rw [h]
    rfl
  · rw [hcd]
    exact getLast?_or_ne_none _ _ h

/-! ### Concrete fixtures used by the closed witnesses and counterexamples -/

/-- Seven consecutive daily records for ticker `A`. -/
def dbSeven : List Quote :=
  [⟨"A", 1, 10, 0, 0, 1⟩, ⟨"A", 2, 11, 0, 0, 2⟩, ⟨"A", 3, 12, 0, 0, 3⟩,
   ⟨"A", 4, 13, 0, 0, 4⟩, ⟨"A", 5, 14, 0, 0, 5⟩, ⟨"A", 6, 15, 0, 0, 6⟩,
   ⟨"A", 7, 16, 0, 0, 7⟩]

/-- External collaborators that always answer `HOLD` and never raise. -/
def bHold : Behaviour := ⟨fun _ _ => .ok "HOLD", fun _ _ => true, fun _ _ => true, []⟩

/-- External collaborators that raise on every single call. -/
def bFail : Behaviour := ⟨fun _ _ => .error "boom", fun _ _ => false, fun _ _ => false, []⟩

/-- An engine state holding only a cash row, clock unset, live methods. -/
def esCash : EngineState := ⟨[⟨"CASH", 500, none, 0⟩], none, true, true, true⟩

/-- An engine state holding one non-cash position, clock unset, live methods. -/
def esPos : EngineState := ⟨[⟨"AAPL", 10, some 5, 0⟩], none, true, true, true⟩

/-- Witness for `per_step_error_containment`: with every external call
raising, the request trace matches the all-`HOLD` run and a result is still
returned. -/
theorem per_step_error_containment_witness :
    (runLoop bFail ["A"] [1, 2, 3, 4, 5, 6, 7] ⟨none, 0, 0, [], []⟩).requests
      = (runLoop bHold ["A"] [1, 2, 3, 4, 5, 6, 7] ⟨none, 0, 0, [], []⟩).requests
  ∧ (run_backtest dbSeven 1000 7 bFail ["A"] 0 10 true esCash).1.isSome = true :=
  per_step_error_containment bFail bHold ["A"] [1, 2, 3, 4, 5, 6, 7]
    ⟨none, 0, 0, [], []⟩ dbSeven 1000 7 "A" [] 0 10 true esCash (by decide)

/-- Witness for `restoration_without_clock_clear` on the concrete seven-day
calendar. -/
theorem restoration_without_clock_clear_witness :
    (run_backtest dbSeven 1000 7 bHold ["A"] 0 10 true esCash).2.priceSlotLive = true
  ∧ (run_backtest dbSeven 1000 7 bHold ["A"] 0 10 true esCash).2.quotesSlotLive = true
  ∧ (run_backtest dbSeven 1000 7 bHold ["A"] 0 10 true esCash).2.volSlotLive = true
  ∧ (run_backtest dbSeven 1000 7 bHold ["A"] 0 10 true esCash).2.current_date
      = (get_available_dates dbSeven "A" 0 10).getLast?.or esCash.current_date
  ∧ (run_backtest dbSeven 1000 7 bHold ["A"] 0 10 true esCash).2.current_date ≠ none :=
  restoration_without_clock_clear dbSeven 1000 7 bHold "A" [] 0 10 true esCash
    (by decide)

/-- Counterexample to claim C2 as stated: after this concrete successful run,
`self.current_date` is still set (to the last simulated date), not cleared
back to `None`. -/
theorem clock_cleared_counterexample :
    (run_backtest dbSeven 1000 7 bHold ["A"] 0 10 true esCash).2.current_date
      ≠ none := by
  decide

/-- Claim C3, amended. With an empty instrument list `run_backtest` returns
the empty result and the per-date loop never starts (clock and method slots
are untouched) — but `reset_portfolio` DOES run first whenever
`reset_before` is set, because the source resets before validating the
instrument list; "no reset side effects" holds only for
`reset_before = False`. -/
theorem empty_tickers_aborts (db : List Quote) (cash : ℚ) (now : Nat)
    (b : Behaviour) (sd ed : Nat) (rb : Bool) (es : EngineState) :
    (run_backtest db cash now b [] sd ed rb es).1 = none
  ∧ (run_backtest db cash now b [] sd ed rb es).2.current_date = es.current_date
  ∧ (run_backtest db cash now b [] sd ed rb es).2.priceSlotLive = es.priceSlotLive
  ∧ (run_backtest db cash now b [] sd ed rb es).2.quotesSlotLive = es.quotesSlotLive
  ∧ (run_backtest db cash now b [] sd ed rb es).2.volSlotLive = es.volSlotLive
  ∧ (run_backtest db cash now b [] sd ed rb es).2.portfolio
      = (if rb then reset_portfolio cash now es.portfolio else es.portfolio) := by
  cases rb <;> exact ⟨rfl, rfl, rfl, rfl, rfl, rfl⟩

/-- Counterexample to claim C3 as stated: with an empty instrument list but
`reset_before = True`, the portfolio state IS mutated (reset runs before the
empty-list check). -/
theorem empty_tickers_counterexample :
    (run_backtest [] 1000 7 bHold [] 0 10 true esPos).2.portfolio
      ≠ esPos.portfolio := by
  decide
